import Mathlib

/-!
Verification development for the `proc_route_parser` crate.

The embedding models Rust strings as lists of bytes (`List Nat`; the
`/proc/net` pseudo-files are ASCII), machine integers as `Nat` with
explicit bounds where overflow matters, and fallible Rust functions as
`Except` values.  A Rust panic (the unguarded slice index
`field.as_bytes()[0]` in `ipv4.rs`) is modelled as the `none` value of an
outer `Option` layer, so a line parser returns
`Option (Except RouteParseError _)`.
-/

set_option maxRecDepth 10000

namespace ProcRoute

/-- Bytes of a Lean string literal, used to write ASCII fixture lines. -/
def strBytes (s : String) : List Nat :=
  s.data.map (fun c => c.toNat)

/-- The error enum `ConvertError` of `src/utils.rs`. -/
inductive ConvertError
  | OddStringLength (s : List Nat)
  | SliceToBytes
  | OutOfHexRange (b : Nat)
deriving DecidableEq

/-- The error enum `RouteParseError` of `src/lib.rs`.  The payloads of the
I/O and slice variants are irrelevant to parsing and are dropped. -/
inductive RouteParseError
  | Io
  | Convert (e : ConvertError)
  | InvalidFieldCount (expected found : Nat)
  | MissingField (i : Nat)
  | SliceToBytes
deriving DecidableEq

/-- `hex_char_to_u8` of `src/utils.rs`: one ASCII hex digit to its value. -/
def hex_char_to_u8 (hex : Nat) : Except ConvertError Nat :=
  if 48 ≤ hex ∧ hex ≤ 57 then Except.ok (hex - 48)
  else if 97 ≤ hex ∧ hex ≤ 102 then Except.ok (hex - 97 + 10)
  else if 65 ≤ hex ∧ hex ≤ 70 then Except.ok (hex - 65 + 10)
  else Except.error (ConvertError.OutOfHexRange hex)

/-- `hex_char_pair_to_byte` of `src/utils.rs`:
`hex_char_to_u8(high)? << 4 | hex_char_to_u8(low)?`. -/
def hex_char_pair_to_byte (high low : Nat) : Except ConvertError Nat := do
  let h ← hex_char_to_u8 high
  let l ← hex_char_to_u8 low
  pure (h <<< 4 ||| l)

/-- The loop body of `hex_str_to_bytes`: decode the byte string two
characters at a time, left to right (`chunks_exact(2)` drops a trailing
odd character, which cannot occur after the evenness check). -/
def hexPairsToBytes : List Nat → Except ConvertError (List Nat)
  | [] => Except.ok []
  | high :: low :: rest => do
      let b ← hex_char_pair_to_byte high low
      let bs ← hexPairsToBytes rest
      pure (b :: bs)
  | [_] => Except.ok []

/-- `hex_str_to_bytes` of `src/utils.rs`: reject odd length, then decode
2-character chunks left to right. -/
def hex_str_to_bytes (text : List Nat) : Except ConvertError (List Nat) :=
  if text.length % 2 ≠ 0 then Except.error (ConvertError.OddStringLength text)
  else hexPairsToBytes text

/-- A Rust `std::net::Ipv4Addr` as its four octets. -/
structure Ipv4Addr where
  o0 : Nat
  o1 : Nat
  o2 : Nat
  o3 : Nat
deriving DecidableEq

/-- `Ipv4Addr::from(u32)`: the u32 is taken as a big-endian octet group. -/
def Ipv4Addr.ofU32 (n : Nat) : Ipv4Addr :=
  ⟨n / 16777216 % 256, n / 65536 % 256, n / 256 % 256, n % 256⟩

/-- `u32::from_le_bytes([b0,b1,b2,b3])`. -/
def u32_from_le_bytes (b0 b1 b2 b3 : Nat) : Nat :=
  b0 + b1 * 256 + b2 * 65536 + b3 * 16777216

/-- `u16::from_be_bytes([a,b])`. -/
def u16_from_be_bytes (a b : Nat) : Nat := a * 256 + b

/-- `u32::from_be_bytes([a,b,c,d])`. -/
def u32_from_be_bytes (a b c d : Nat) : Nat :=
  ((a * 256 + b) * 256 + c) * 256 + d

/-- `hex_str_to_ipv4` of `src/utils.rs`: any input whose length is not 8
is rejected with `OddStringLength`; otherwise the four hex-decoded bytes
are read as a little-endian u32 and that u32 becomes the address.  The
8-element pattern match is the `text.len() != 8` guard plus the four
iterations of the `chunks_exact(2)` loop. -/
def hex_str_to_ipv4 (text : List Nat) : Except ConvertError Ipv4Addr :=
  match text with
  | [h0, l0, h1, l1, h2, l2, h3, l3] => do
      let b0 ← hex_char_pair_to_byte h0 l0
      let b1 ← hex_char_pair_to_byte h1 l1
      let b2 ← hex_char_pair_to_byte h2 l2
      let b3 ← hex_char_pair_to_byte h3 l3
      pure (Ipv4Addr.ofU32 (u32_from_le_bytes b0 b1 b2 b3))
  | _ => Except.error (ConvertError.OddStringLength text)

/-- A Rust `std::net::Ipv6Addr` as its sixteen octets. -/
structure Ipv6Addr where
  octets : List Nat
deriving DecidableEq

/-- `hex_str_to_ipv6` of `src/utils.rs`: decode the hex string and then
`try_into` a 16-byte array (`SliceToBytes` on a length mismatch). -/
def hex_str_to_ipv6 (text : List Nat) : Except ConvertError Ipv6Addr := do
  let bs ← hex_str_to_bytes text
  if bs.length = 16 then Except.ok ⟨bs⟩
  else Except.error ConvertError.SliceToBytes

/-- The `bitflags`-generated type `Ipv4RouteFlags` of `src/ipv4.rs`: a
plain u16 bitmask. -/
structure Ipv4RouteFlags where
  bits : Nat
deriving DecidableEq

/-- `bitflags`' `from_bits_retain`: keep every bit, named or not. -/
def Ipv4RouteFlags.from_bits_retain (b : Nat) : Ipv4RouteFlags := ⟨b⟩

/-- `bitflags`' `contains`: `self.bits() & other.bits() == other.bits()`. -/
def Ipv4RouteFlags.contains (f c : Ipv4RouteFlags) : Bool :=
  f.bits &&& c.bits == c.bits

def Ipv4RouteFlags.UP : Ipv4RouteFlags := ⟨0x0001⟩
def Ipv4RouteFlags.GATEWAY : Ipv4RouteFlags := ⟨0x0002⟩
def Ipv4RouteFlags.HOST : Ipv4RouteFlags := ⟨0x0004⟩
def Ipv4RouteFlags.REINSTATE : Ipv4RouteFlags := ⟨0x0008⟩
def Ipv4RouteFlags.DYNAMIC : Ipv4RouteFlags := ⟨0x0010⟩
def Ipv4RouteFlags.MODIFIED : Ipv4RouteFlags := ⟨0x0020⟩
def Ipv4RouteFlags.MTU : Ipv4RouteFlags := ⟨0x0040⟩
def Ipv4RouteFlags.WINDOW : Ipv4RouteFlags := ⟨0x0080⟩
def Ipv4RouteFlags.IRTT : Ipv4RouteFlags := ⟨0x0100⟩
def Ipv4RouteFlags.REJECT : Ipv4RouteFlags := ⟨0x0200⟩

/-- The `bitflags`-generated type `Ipv6RouteFlags` of `src/ipv6.rs`: a
plain u32 bitmask. -/
structure Ipv6RouteFlags where
  bits : Nat
deriving DecidableEq

/-- `bitflags`' `from_bits_retain`: keep every bit, named or not. -/
def Ipv6RouteFlags.from_bits_retain (b : Nat) : Ipv6RouteFlags := ⟨b⟩

/-- `bitflags`' `contains`: `self.bits() & other.bits() == other.bits()`. -/
def Ipv6RouteFlags.contains (f c : Ipv6RouteFlags) : Bool :=
  f.bits &&& c.bits == c.bits

def Ipv6RouteFlags.UP : Ipv6RouteFlags := ⟨0x0001⟩
def Ipv6RouteFlags.GATEWAY : Ipv6RouteFlags := ⟨0x0002⟩
def Ipv6RouteFlags.HOST : Ipv6RouteFlags := ⟨0x0004⟩
def Ipv6RouteFlags.REINSTATE : Ipv6RouteFlags := ⟨0x0008⟩
def Ipv6RouteFlags.DYNAMIC : Ipv6RouteFlags := ⟨0x0010⟩
def Ipv6RouteFlags.MODIFIED : Ipv6RouteFlags := ⟨0x0020⟩
def Ipv6RouteFlags.MTU : Ipv6RouteFlags := ⟨0x0040⟩
def Ipv6RouteFlags.WINDOW : Ipv6RouteFlags := ⟨0x0080⟩
def Ipv6RouteFlags.IRTT : Ipv6RouteFlags := ⟨0x0100⟩
def Ipv6RouteFlags.REJECT : Ipv6RouteFlags := ⟨0x0200⟩
def Ipv6RouteFlags.DEFAULT : Ipv6RouteFlags := ⟨0x00010000⟩
def Ipv6RouteFlags.ALL_ON_LINK : Ipv6RouteFlags := ⟨0x00020000⟩
def Ipv6RouteFlags.ADDR_CONF : Ipv6RouteFlags := ⟨0x00040000⟩
def Ipv6RouteFlags.PREFIX_ONLY : Ipv6RouteFlags := ⟨0x00080000⟩
def Ipv6RouteFlags.ANYCAST : Ipv6RouteFlags := ⟨0x00100000⟩
def Ipv6RouteFlags.NO_NEXT_HOP : Ipv6RouteFlags := ⟨0x00200000⟩
def Ipv6RouteFlags.EXPIRES : Ipv6RouteFlags := ⟨0x00400000⟩
def Ipv6RouteFlags.ROUTE_INFO : Ipv6RouteFlags := ⟨0x00800000⟩
def Ipv6RouteFlags.CACHE : Ipv6RouteFlags := ⟨0x01000000⟩
def Ipv6RouteFlags.FLOW : Ipv6RouteFlags := ⟨0x02000000⟩
def Ipv6RouteFlags.POLICY : Ipv6RouteFlags := ⟨0x04000000⟩
def Ipv6RouteFlags.PREF_RESERVED : Ipv6RouteFlags := ⟨0⟩
def Ipv6RouteFlags.PREF_HIGH : Ipv6RouteFlags := ⟨1 <<< 27⟩
def Ipv6RouteFlags.PREF_MEDIUM : Ipv6RouteFlags := ⟨2 <<< 27⟩
def Ipv6RouteFlags.PREF_LOW : Ipv6RouteFlags := ⟨3 <<< 27⟩
def Ipv6RouteFlags.PER_CPU : Ipv6RouteFlags := ⟨0x40000000⟩
def Ipv6RouteFlags.LOCAL : Ipv6RouteFlags := ⟨0x80000000⟩

/-- ASCII whitespace, the fragment of `char::is_whitespace` relevant to
the ASCII pseudo-file lines. -/
def isWsByte (c : Nat) : Bool :=
  c == 32 || c == 9 || c == 10 || c == 11 || c == 12 || c == 13

/-- Worker for `split_whitespace`: `cur` is the (reversed) field being
accumulated; fields are emitted only when non-empty, so runs of
whitespace produce no empty fields. -/
def splitWsGo : List Nat → List Nat → List (List Nat)
  | [], cur => if cur.isEmpty then [] else [cur.reverse]
  | c :: rest, cur =>
    if isWsByte c then
      if cur.isEmpty then splitWsGo rest []
      else cur.reverse :: splitWsGo rest []
    else splitWsGo rest (c :: cur)

/-- Rust `str::split_whitespace` collected into a `Vec`: maximal
non-whitespace runs, in order, with empty pieces dropped. -/
def split_whitespace (l : List Nat) : List (List Nat) :=
  splitWsGo l []

/-- The struct `Ipv4RouteEntry` of `src/ipv4.rs`. -/
structure Ipv4RouteEntry where
  name : List Nat
  dest : Ipv4Addr
  gateway : Ipv4Addr
  flags : Ipv4RouteFlags
  ref_count : Nat
  use_count : Nat
  metric : Nat
  mask : Ipv4Addr
  mtu : Nat
  window : Nat
  irtt : Nat
deriving DecidableEq

/-- The struct `Ipv6RouteEntry` of `src/ipv6.rs`. -/
structure Ipv6RouteEntry where
  dest : Ipv6Addr
  dest_prefix : Nat
  src : Ipv6Addr
  src_prefix : Nat
  next_hop : Ipv6Addr
  metric : Nat
  ref_count : Nat
  use_count : Nat
  flags : Ipv6RouteFlags
  name : List Nat
deriving DecidableEq

/-- Result of parsing one line: `none` models a Rust panic,
`some (Except.error e)` a returned error, `some (Except.ok v)` success. -/
def ParseM (α : Type) : Type := Option (Except RouteParseError α)

instance {ε α : Type} [DecidableEq ε] [DecidableEq α] :
    DecidableEq (Except ε α) := fun x y =>
  match x, y with
  | Except.error a, Except.error b =>
      if h : a = b then Decidable.isTrue (congrArg Except.error h)
      else Decidable.isFalse (fun hc => h (Except.error.inj hc))
  | Except.ok a, Except.ok b =>
      if h : a = b then Decidable.isTrue (congrArg Except.ok h)
      else Decidable.isFalse (fun hc => h (Except.ok.inj hc))
  | Except.error _, Except.ok _ => Decidable.isFalse (fun hc => Except.noConfusion hc)
  | Except.ok _, Except.error _ => Decidable.isFalse (fun hc => Except.noConfusion hc)

instance {α : Type} [DecidableEq α] : DecidableEq (ParseM α) :=
  inferInstanceAs (DecidableEq (Option (Except RouteParseError α)))

/-- Sequencing of the Rust `?` operator (with panic propagation): stop on
a panic or an error, continue on success. -/
def pBind {α β : Type} (x : ParseM α) (f : α → ParseM β) : ParseM β :=
  match x with
  | none => none
  | some (Except.error e) => some (Except.error e)
  | some (Except.ok a) => f a

/-- An early `return Err(e)` or a failed `?`. -/
def pErr {α : Type} (e : RouteParseError) : ParseM α :=
  some (Except.error e)

/-- A successful parse. -/
def pOk {α : Type} (a : α) : ParseM α :=
  some (Except.ok a)

/-- Lift a `ConvertError` computation through the `From` conversion of the
`?` operator (`RouteParseError::Convert`). -/
def ofConvert {α : Type} (x : Except ConvertError α) : ParseM α :=
  some (x.mapError RouteParseError.Convert)

/-- The `get_field` closure of both parsers:
`fields.get(i).cloned().ok_or(MissingField(i))`. -/
def getField (fields : List (List Nat)) (i : Nat) : ParseM (List Nat) :=
  some (match fields.get? i with
    | some f => Except.ok f
    | none => Except.error (RouteParseError.MissingField i))

/-- The unguarded index `field.as_bytes()[0]` of `src/ipv4.rs`: out of
bounds is a Rust panic, modelled as `none`. -/
def indexByte (f : List Nat) (i : Nat) : ParseM Nat :=
  match f.get? i with
  | some b => some (Except.ok b)
  | none => none

/-- `try_into` a `[u8; 2]`, with the `?` conversion to
`RouteParseError::SliceToBytes`. -/
def sliceToPair (f : List Nat) : ParseM (Nat × Nat) :=
  some (match f with
    | [a, b] => Except.ok (a, b)
    | _ => Except.error RouteParseError.SliceToBytes)

/-- `try_into` a `[u8; 4]`, with the `?` conversion to
`RouteParseError::SliceToBytes`. -/
def sliceToQuad (f : List Nat) : ParseM (Nat × Nat × Nat × Nat) :=
  some (match f with
    | [a, b, c, d] => Except.ok (a, b, c, d)
    | _ => Except.error RouteParseError.SliceToBytes)

/-- `impl FromStr for Ipv4RouteEntry` (`src/ipv4.rs`): split on
whitespace, require at least 11 fields, then decode the fields in the
order of the struct literal. -/
def Ipv4RouteEntry.from_str (line : List Nat) : ParseM Ipv4RouteEntry :=
  let fields := split_whitespace line
  if fields.length < 11 then
    pErr (RouteParseError.InvalidFieldCount 11 fields.length)
  else
    pBind (getField fields 0) (fun f0 =>
    pBind (getField fields 1) (fun f1 =>
    pBind (ofConvert (hex_str_to_ipv4 f1)) (fun dest =>
    pBind (getField fields 2) (fun f2 =>
    pBind (ofConvert (hex_str_to_ipv4 f2)) (fun gateway =>
    pBind (getField fields 3) (fun f3 =>
    pBind (ofConvert (hex_str_to_bytes f3)) (fun flagBytes =>
    pBind (sliceToPair flagBytes) (fun fp =>
    pBind (getField fields 4) (fun f4 =>
    pBind (indexByte f4 0) (fun c4 =>
    pBind (ofConvert (hex_char_to_u8 c4)) (fun rc =>
    pBind (getField fields 5) (fun f5 =>
    pBind (indexByte f5 0) (fun c5 =>
    pBind (ofConvert (hex_char_to_u8 c5)) (fun uc =>
    pBind (getField fields 6) (fun f6 =>
    pBind (indexByte f6 0) (fun c6 =>
    pBind (ofConvert (hex_char_to_u8 c6)) (fun mr =>
    pBind (getField fields 7) (fun f7 =>
    pBind (ofConvert (hex_str_to_ipv4 f7)) (fun mask =>
    pBind (getField fields 8) (fun f8 =>
    pBind (indexByte f8 0) (fun c8 =>
    pBind (ofConvert (hex_char_to_u8 c8)) (fun mt =>
    pBind (getField fields 9) (fun f9 =>
    pBind (indexByte f9 0) (fun c9 =>
    pBind (ofConvert (hex_char_to_u8 c9)) (fun wd =>
    pBind (getField fields 10) (fun f10 =>
    pBind (indexByte f10 0) (fun c10 =>
    pBind (ofConvert (hex_char_to_u8 c10)) (fun ir =>
    pOk (Ipv4RouteEntry.mk f0 dest gateway
      (Ipv4RouteFlags.from_bits_retain (u16_from_be_bytes fp.1 fp.2))
      rc uc mr mask mt wd ir)))))))))))))))))))))))))))))

/-- `impl FromStr for Ipv6RouteEntry` (`src/ipv6.rs`): split on
whitespace, require at least 10 fields, then decode the fields in the
order of the struct literal. -/
def Ipv6RouteEntry.from_str (line : List Nat) : ParseM Ipv6RouteEntry :=
  let fields := split_whitespace line
  if fields.length < 10 then
    pErr (RouteParseError.InvalidFieldCount 10 fields.length)
  else
    pBind (getField fields 0) (fun f0 =>
    pBind (ofConvert (hex_str_to_ipv6 f0)) (fun dest =>
    pBind (getField fields 1) (fun f1 =>
    pBind (sliceToPair f1) (fun dp =>
    pBind (ofConvert (hex_char_pair_to_byte dp.1 dp.2)) (fun dpv =>
    pBind (getField fields 2) (fun f2 =>
    pBind (ofConvert (hex_str_to_ipv6 f2)) (fun src =>
    pBind (getField fields 3) (fun f3 =>
    pBind (sliceToPair f3) (fun sp =>
    pBind (ofConvert (hex_char_pair_to_byte sp.1 sp.2)) (fun spv =>
    pBind (getField fields 4) (fun f4 =>
    pBind (ofConvert (hex_str_to_ipv6 f4)) (fun nh =>
    pBind (getField fields 5) (fun f5 =>
    pBind (ofConvert (hex_str_to_bytes f5)) (fun mb =>
    pBind (sliceToQuad mb) (fun mq =>
    pBind (getField fields 6) (fun f6 =>
    pBind (ofConvert (hex_str_to_bytes f6)) (fun rb =>
    pBind (sliceToQuad rb) (fun rq =>
    pBind (getField fields 7) (fun f7 =>
    pBind (ofConvert (hex_str_to_bytes f7)) (fun ub =>
    pBind (sliceToQuad ub) (fun uq =>
    pBind (getField fields 8) (fun f8 =>
    pBind (ofConvert (hex_str_to_bytes f8)) (fun fb =>
    pBind (sliceToQuad fb) (fun fq =>
    pBind (getField fields 9) (fun f9 =>
    pOk (Ipv6RouteEntry.mk dest dpv src spv nh
      (u32_from_be_bytes mq.1 mq.2.1 mq.2.2.1 mq.2.2.2)
      (u32_from_be_bytes rq.1 rq.2.1 rq.2.2.1 rq.2.2.2)
      (u32_from_be_bytes uq.1 uq.2.1 uq.2.2.1 uq.2.2.2)
      (Ipv6RouteFlags.from_bits_retain
        (u32_from_be_bytes fq.1 fq.2.1 fq.2.2.1 fq.2.2.2))
      f9))))))))))))))))))))))))))

/-- The sequence of items yielded by `Ipv4RouteTable` over the lines `ls`
supplied by the external line source: `open` applies `.skip(1)` (the
header line of `/proc/net/route`) and `next` maps each remaining line
through the entry parser, one item per line. -/
def Ipv4RouteTable.items (ls : List (List Nat)) : List (ParseM Ipv4RouteEntry) :=
  (ls.drop 1).map Ipv4RouteEntry.from_str

/-- The sequence of items yielded by `Ipv6RouteTable` over the lines `ls`
supplied by the external line source: no line is skipped and `next` maps
each line through the entry parser, one item per line. -/
def Ipv6RouteTable.items (ls : List (List Nat)) : List (ParseM Ipv6RouteEntry) :=
  ls.map Ipv6RouteEntry.from_str

/-! ### Supporting lemmas -/

/-- The hex alphabet `0-9a-fA-F`, as byte values. -/
def isHexAscii (c : Nat) : Bool :=
  (48 ≤ c && c ≤ 57) || (97 ≤ c && c ≤ 102) || (65 ≤ c && c ≤ 70)

theorem hex_char_to_u8_lt {c v : Nat} (h : hex_char_to_u8 c = Except.ok v) :
    v < 16 := by
  unfold hex_char_to_u8 at h
  split_ifs at h <;> injection h with hv <;> omega

theorem hex_char_to_u8_ok_of_isHex {c : Nat} (h : isHexAscii c = true) :
    ∃ v, hex_char_to_u8 c = Except.ok v ∧ v < 16 := by
  simp only [isHexAscii, Bool.or_eq_true, Bool.and_eq_true, decide_eq_true_eq] at h
  unfold hex_char_to_u8
  split_ifs with h1 h2 h3 <;> [skip; skip; skip; omega] <;>
    exact ⟨_, rfl, by omega⟩

theorem hex_char_to_u8_err_of_not_isHex {c : Nat} (h : isHexAscii c = false) :
    hex_char_to_u8 c = Except.error (ConvertError.OutOfHexRange c) := by
  simp only [isHexAscii, Bool.or_eq_false_iff, Bool.and_eq_false_iff,
    decide_eq_false_iff_not] at h
  unfold hex_char_to_u8
  split_ifs with h1 h2 h3 <;> [omega; omega; omega; rfl]

theorem nibble_shiftLeft_or :
    ∀ h, h < 16 → ∀ l, l < 16 → h <<< 4 ||| l = 16 * h + l := by decide

theorem hex_char_pair_to_byte_eq {hi lo h l : Nat}
    (hh : hex_char_to_u8 hi = Except.ok h) (hl : hex_char_to_u8 lo = Except.ok l) :
    hex_char_pair_to_byte hi lo = Except.ok (16 * h + l) := by
  have hb := hex_char_to_u8_lt hh
  have lb := hex_char_to_u8_lt hl
  unfold hex_char_pair_to_byte
  rw [hh]
  show (hex_char_to_u8 lo).bind _ = _
  rw [hl]
  show Except.ok (h <<< 4 ||| l) = _
  rw [nibble_shiftLeft_or h hb l lb]

theorem hex_char_pair_to_byte_lt {hi lo b : Nat}
    (h : hex_char_pair_to_byte hi lo = Except.ok b) : b < 256 := by
  unfold hex_char_pair_to_byte at h
  cases hh : hex_char_to_u8 hi with
  | error e => rw [hh] at h; exact Except.noConfusion h
  | ok hv =>
    rw [hh] at h
    replace h : (hex_char_to_u8 lo).bind _ = Except.ok b := h
    cases hl : hex_char_to_u8 lo with
    | error e => rw [hl] at h; exact Except.noConfusion h
    | ok lv =>
      rw [hl] at h
      replace h : Except.ok (hv <<< 4 ||| lv) = Except.ok b := h
      injection h with h
      have hb := hex_char_to_u8_lt hh
      have lb := hex_char_to_u8_lt hl
      rw [nibble_shiftLeft_or hv hb lv lb] at h
      omega

theorem hex_char_pair_to_byte_err_high {hi lo : Nat} {e : ConvertError}
    (h : hex_char_to_u8 hi = Except.error e) :
    hex_char_pair_to_byte hi lo = Except.error e := by
  unfold hex_char_pair_to_byte
  rw [h]; rfl

theorem hex_char_pair_to_byte_err_low {hi lo hv : Nat} {e : ConvertError}
    (hh : hex_char_to_u8 hi = Except.ok hv)
    (h : hex_char_to_u8 lo = Except.error e) :
    hex_char_pair_to_byte hi lo = Except.error e := by
  unfold hex_char_pair_to_byte
  rw [hh]
  show (hex_char_to_u8 lo).bind _ = _
  rw [h]; rfl

theorem hexPairsToBytes_ok (s : List Nat) (he : s.length % 2 = 0)
    (hhex : ∀ c ∈ s, isHexAscii c = true) :
    ∃ bs, hexPairsToBytes s = Except.ok bs ∧ bs.length = s.length / 2 ∧
      ∀ i hi lo, s.get? (2 * i) = some hi → s.get? (2 * i + 1) = some lo →
        ∃ nh nl, hex_char_to_u8 hi = Except.ok nh ∧
          hex_char_to_u8 lo = Except.ok nl ∧
          bs.get? i = some (16 * nh + nl) := by
  induction s using hexPairsToBytes.induct with
  | case1 =>
    refine ⟨[], rfl, rfl, ?_⟩
    intro i hi lo hgi
    simp at hgi
  | case2 hi lo rest ih =>
    simp only [List.length_cons] at he
    have he' : rest.length % 2 = 0 := by omega
    obtain ⟨nh, hnh, _⟩ :=
      hex_char_to_u8_ok_of_isHex (hhex hi (by simp))
    obtain ⟨nl, hnl, _⟩ :=
      hex_char_to_u8_ok_of_isHex (hhex lo (by simp))
    obtain ⟨bs, hbs, hlen, hidx⟩ := ih he'
      (fun c hc => hhex c (by simp [hc]))
    refine ⟨(16 * nh + nl) :: bs, ?_, ?_, ?_⟩
    · unfold hexPairsToBytes
      rw [hex_char_pair_to_byte_eq hnh hnl]
      show (hexPairsToBytes rest).bind _ = _
      rw [hbs]
      rfl
    · simp only [List.length_cons, hlen]
      omega
    · intro i chi clo hgi hgi1
      cases i with
      | zero =>
        simp only [Nat.mul_zero, List.get?_cons_zero, List.get?_cons_succ,
          Option.some.injEq] at hgi hgi1
        subst hgi hgi1
        exact ⟨nh, nl, hnh, hnl, rfl⟩
      | succ j =>
        have e1 : 2 * (j + 1) = 2 * j + 1 + 1 := by omega
        have e2 : 2 * (j + 1) + 1 = 2 * j + 1 + 1 + 1 := by omega
        rw [e1] at hgi
        rw [e2] at hgi1
        simp only [List.get?_cons_succ] at hgi hgi1
        obtain ⟨nh', nl', ha, hb, hc⟩ := hidx j chi clo hgi hgi1
        refine ⟨nh', nl', ha, hb, ?_⟩
        simp only [List.get?_cons_succ]
        exact hc
  | case3 c =>
    simp at he

theorem hexPairsToBytes_err (s : List Nat) (he : s.length % 2 = 0)
    (hbad : ∃ c ∈ s, isHexAscii c = false) :
    ∃ b, isHexAscii b = false ∧
      hexPairsToBytes s = Except.error (ConvertError.OutOfHexRange b) := by
  induction s using hexPairsToBytes.induct with
  | case1 => simp at hbad
  | case2 hi lo rest ih =>
    simp only [List.length_cons] at he
    have he' : rest.length % 2 = 0 := by omega
    by_cases hh : isHexAscii hi = true
    · obtain ⟨nh, hnh, _⟩ := hex_char_to_u8_ok_of_isHex hh
      by_cases hl : isHexAscii lo = true
      · obtain ⟨nl, hnl, _⟩ := hex_char_to_u8_ok_of_isHex hl
        have hbad' : ∃ c ∈ rest, isHexAscii c = false := by
          rcases hbad with ⟨c, hc, hcf⟩
          simp only [List.mem_cons] at hc
          rcases hc with rfl | rfl | hc
          · rw [hh] at hcf; exact Bool.noConfusion hcf
          · rw [hl] at hcf; exact Bool.noConfusion hcf
          · exact ⟨c, hc, hcf⟩
        obtain ⟨b, hbf, hberr⟩ := ih he' hbad'
        refine ⟨b, hbf, ?_⟩
        unfold hexPairsToBytes
        rw [hex_char_pair_to_byte_eq hnh hnl]
        show (hexPairsToBytes rest).bind _ = _
        rw [hberr]
        rfl
      · have hle : isHexAscii lo = false := by
          simpa using hl
        refine ⟨lo, hle, ?_⟩
        unfold hexPairsToBytes
        rw [hex_char_pair_to_byte_err_low hnh
          (hex_char_to_u8_err_of_not_isHex hle)]
        rfl
    · have hhe : isHexAscii hi = false := by
        simpa using hh
      refine ⟨hi, hhe, ?_⟩
      unfold hexPairsToBytes
      rw [hex_char_pair_to_byte_err_high
        (hex_char_to_u8_err_of_not_isHex hhe)]
      rfl
  | case3 c => simp at he

theorem hexPairsToBytes_length (s : List Nat) (bs : List Nat)
    (he : s.length % 2 = 0) (h : hexPairsToBytes s = Except.ok bs) :
    s.length = 2 * bs.length := by
  induction s using hexPairsToBytes.induct generalizing bs with
  | case1 =>
    injection h with h
    subst h
    rfl
  | case2 hi lo rest ih =>
    simp only [List.length_cons] at he ⊢
    have he' : rest.length % 2 = 0 := by omega
    unfold hexPairsToBytes at h
    cases hp : hex_char_pair_to_byte hi lo with
    | error e => rw [hp] at h; exact Except.noConfusion h
    | ok b =>
      rw [hp] at h
      replace h : (hexPairsToBytes rest).bind _ = Except.ok bs := h
      cases hr : hexPairsToBytes rest with
      | error e => rw [hr] at h; exact Except.noConfusion h
      | ok bs' =>
        rw [hr] at h
        replace h : Except.ok (b :: bs') = Except.ok bs := h
        injection h with h
        subst h
        have := ih bs' he' hr
        simp only [List.length_cons]
        omega
  | case3 c => simp at he

theorem hex_str_to_bytes_ok_inv {s bs : List Nat}
    (h : hex_str_to_bytes s = Except.ok bs) :
    s.length % 2 = 0 ∧ s.length = 2 * bs.length ∧
      hexPairsToBytes s = Except.ok bs := by
  unfold hex_str_to_bytes at h
  by_cases hc : s.length % 2 = 0
  · rw [if_neg (by omega)] at h
    exact ⟨hc, hexPairsToBytes_length s bs hc h, h⟩
  · rw [if_pos (by omega)] at h
    exact Except.noConfusion h

theorem pBind_eq_ok {α β : Type} {x : ParseM α} {f : α → ParseM β} {b : β}
    (h : pBind x f = pOk b) : ∃ a, x = pOk a ∧ f a = pOk b := by
  unfold pBind at h
  match x, h with
  | none, h => exact Option.noConfusion h
  | some (Except.error e), h =>
    injection h with h
    exact Except.noConfusion h
  | some (Except.ok a), h => exact ⟨a, rfl, h⟩

theorem pBind_ne_none {α β : Type} {x : ParseM α} {f : α → ParseM β}
    (hx : x ≠ none) (hf : ∀ a, x = some (Except.ok a) → f a ≠ none) :
    pBind x f ≠ none := by
  unfold pBind
  match x, hx, hf with
  | none, hx, _ => exact absurd rfl hx
  | some (Except.error e), _, _ => exact Option.noConfusion
  | some (Except.ok a), _, hf => exact hf a rfl

theorem getField_eq_ok {fields : List (List Nat)} {i : Nat} {f : List Nat}
    (h : getField fields i = pOk f) : fields.get? i = some f := by
  unfold getField pOk at h
  injection h with h
  cases hg : fields.get? i with
  | none =>
    rw [hg] at h
    exact Except.noConfusion h
  | some g =>
    rw [hg] at h
    injection h with h
    rw [h]

theorem ofConvert_eq_ok {α : Type} {x : Except ConvertError α} {a : α}
    (h : ofConvert x = pOk a) : x = Except.ok a := by
  unfold ofConvert pOk at h
  injection h with h
  cases x with
  | error e => exact Except.noConfusion h
  | ok b =>
    replace h : Except.ok b = Except.ok a := h
    injection h with h
    rw [h]

theorem indexByte_eq_ok {f : List Nat} {i b : Nat}
    (h : indexByte f i = pOk b) : f.get? i = some b := by
  unfold indexByte pOk at h
  cases hg : f.get? i with
  | none => rw [hg] at h; exact Option.noConfusion h
  | some c =>
    rw [hg] at h
    injection h with h
    injection h with h
    rw [h]

theorem indexByte_ne_none {f : List Nat} (hf : f ≠ []) :
    indexByte f 0 ≠ none := by
  unfold indexByte
  cases f with
  | nil => exact absurd rfl hf
  | cons c t => exact Option.noConfusion

theorem splitWsGo_mem_ne_nil :
    ∀ (l cur f : List Nat), f ∈ splitWsGo l cur → f ≠ [] := by
  intro l
  induction l with
  | nil =>
    intro cur f hf
    unfold splitWsGo at hf
    by_cases hcur : cur.isEmpty
    · rw [if_pos hcur] at hf
      simp at hf
    · rw [if_neg hcur] at hf
      simp only [List.mem_singleton] at hf
      subst hf
      intro hrev
      have : cur = [] := by simpa using hrev
      rw [this] at hcur
      exact hcur rfl
  | cons c t ih =>
    intro cur f hf
    unfold splitWsGo at hf
    by_cases hws : isWsByte c = true
    · rw [if_pos hws] at hf
      by_cases hcur : cur.isEmpty
      · rw [if_pos hcur] at hf
        exact ih [] f hf
      · rw [if_neg hcur] at hf
        simp only [List.mem_cons] at hf
        rcases hf with rfl | hf
        · intro hrev
          have : cur = [] := by simpa using hrev
          rw [this] at hcur
          exact hcur rfl
        · exact ih [] f hf
    · rw [if_neg hws] at hf
      exact ih (c :: cur) f hf

theorem split_whitespace_mem_ne_nil {l f : List Nat}
    (hf : f ∈ split_whitespace l) : f ≠ [] :=
  splitWsGo_mem_ne_nil l [] f hf

theorem hexPairsToBytes_cons_ok {hi lo : Nat} {rest bs : List Nat}
    (h : hexPairsToBytes (hi :: lo :: rest) = Except.ok bs) :
    ∃ b bs', hex_char_pair_to_byte hi lo = Except.ok b ∧
      hexPairsToBytes rest = Except.ok bs' ∧ bs = b :: bs' := by
  unfold hexPairsToBytes at h
  cases hp : hex_char_pair_to_byte hi lo with
  | error e => rw [hp] at h; exact Except.noConfusion h
  | ok b =>
    rw [hp] at h
    replace h : (hexPairsToBytes rest).bind _ = Except.ok bs := h
    cases hr : hexPairsToBytes rest with
    | error e => rw [hr] at h; exact Except.noConfusion h
    | ok bs' =>
      rw [hr] at h
      replace h : Except.ok (b :: bs') = Except.ok bs := h
      injection h with h
      exact ⟨b, bs', rfl, rfl, h.symm⟩

theorem list_len8 {α : Type} : ∀ (l : List α), l.length = 8 →
    ∃ a0 a1 a2 a3 a4 a5 a6 a7, l = [a0, a1, a2, a3, a4, a5, a6, a7]
  | [a0, a1, a2, a3, a4, a5, a6, a7], _ =>
    ⟨a0, a1, a2, a3, a4, a5, a6, a7, rfl⟩
  | [], h => by simp at h
  | [_], h => by simp at h
  | [_, _], h => by simp at h
  | [_, _, _], h => by simp at h
  | [_, _, _, _], h => by simp at h
  | [_, _, _, _, _], h => by simp at h
  | [_, _, _, _, _, _], h => by simp at h
  | [_, _, _, _, _, _, _], h => by simp at h
  | _ :: _ :: _ :: _ :: _ :: _ :: _ :: _ :: _ :: _, h => by
    simp only [List.length_cons] at h
    omega

theorem ofU32_le_bytes {b0 b1 b2 b3 : Nat} (h0 : b0 < 256) (h1 : b1 < 256)
    (h2 : b2 < 256) (h3 : b3 < 256) :
    Ipv4Addr.ofU32 (u32_from_le_bytes b0 b1 b2 b3) = Ipv4Addr.mk b3 b2 b1 b0 := by
  unfold Ipv4Addr.ofU32 u32_from_le_bytes
  simp only [Ipv4Addr.mk.injEq]
  refine ⟨?_, ?_, ?_, ?_⟩ <;> omega

/-! ### Claim theorems -/

/-- C1: for every 8-character hex string whose straightforward left-to-right
hex decoding is the byte sequence [b0,b1,b2,b3], the IPv4 address decoder
`hex_str_to_ipv4` returns the address with octets b3.b2.b1.b0 — it treats
the 4 hex-decoded bytes as a little-endian 32-bit word before constructing
the address. -/
theorem C1_ipv4_little_endian (text : List Nat) (b0 b1 b2 b3 : Nat)
    (h : hex_str_to_bytes text = Except.ok [b0, b1, b2, b3]) :
    hex_str_to_ipv4 text = Except.ok (Ipv4Addr.mk b3 b2 b1 b0) ∧
    Ipv4Addr.ofU32 (u32_from_le_bytes b0 b1 b2 b3) = Ipv4Addr.mk b3 b2 b1 b0 := by
  obtain ⟨he, hlen, hpp⟩ := hex_str_to_bytes_ok_inv h
  have h8 : text.length = 8 := by
    simp only [List.length_cons, List.length_nil] at hlen
    omega
  obtain ⟨c0, c1, c2, c3, c4, c5, c6, c7, rfl⟩ := list_len8 text h8
  obtain ⟨v0, bs1, hp0, hpp1, hbs⟩ := hexPairsToBytes_cons_ok hpp
  obtain ⟨v1, bs2, hp1, hpp2, hbs1⟩ := hexPairsToBytes_cons_ok hpp1
  obtain ⟨v2, bs3, hp2, hpp3, hbs2⟩ := hexPairsToBytes_cons_ok hpp2
  obtain ⟨v3, bs4, hp3, hpp4, hbs3⟩ := hexPairsToBytes_cons_ok hpp3
  have hbs4 : bs4 = [] := by
    replace hpp4 : Except.ok [] = Except.ok bs4 := hpp4
    injection hpp4 with hpp4
    exact hpp4.symm
  subst hbs4
  rw [hbs1, hbs2, hbs3] at hbs
  injection hbs with e0 hbs
  injection hbs with e1 hbs
  injection hbs with e2 hbs
  injection hbs with e3 _
  subst e0 e1 e2 e3
  have l0 := hex_char_pair_to_byte_lt hp0
  have l1 := hex_char_pair_to_byte_lt hp1
  have l2 := hex_char_pair_to_byte_lt hp2
  have l3 := hex_char_pair_to_byte_lt hp3
  refine ⟨?_, ofU32_le_bytes l0 l1 l2 l3⟩
  show (hex_char_pair_to_byte c0 c1).bind _ = _
  rw [hp0]
  show (hex_char_pair_to_byte c2 c3).bind _ = _
  rw [hp1]
  show (hex_char_pair_to_byte c4 c5).bind _ = _
  rw [hp2]
  show (hex_char_pair_to_byte c6 c7).bind _ = _
  rw [hp3]
  show Except.ok (Ipv4Addr.ofU32 (u32_from_le_bytes b0 b1 b2 b3)) = _
  rw [ofU32_le_bytes l0 l1 l2 l3]

/-- Witness for C1 at the concrete input "0100007f", which hex-decodes to
[1,0,0,127] and must therefore parse as the address 127.0.0.1. -/
theorem C1_ipv4_little_endian_witness :
    hex_str_to_bytes (strBytes "0100007f") = Except.ok [1, 0, 0, 127] ∧
    hex_str_to_ipv4 (strBytes "0100007f") = Except.ok (Ipv4Addr.mk 127 0 0 1) :=
  ⟨by decide,
   (C1_ipv4_little_endian (strBytes "0100007f") 1 0 0 127 (by decide)).1⟩

/-- C3: on every even-length string over the hex alphabet,
`hex_str_to_bytes` succeeds (it is a function, hence deterministic) and
returns a byte sequence of half the length decoded in left-to-right
2-character chunks with the first character as high nibble; every
odd-length string fails with `OddStringLength`; every byte outside the hex
alphabet makes `hex_char_to_u8` fail with `OutOfHexRange`, and that error
propagates unchanged through `hex_char_pair_to_byte` and
`hex_str_to_bytes`. -/
theorem C3_hex_codec (s : List Nat) (c hi lo : Nat) (e : ConvertError) :
    (s.length % 2 = 0 → (∀ b ∈ s, isHexAscii b = true) →
      ∃ bs, hex_str_to_bytes s = Except.ok bs ∧ bs.length = s.length / 2 ∧
        ∀ i chi clo, s.get? (2 * i) = some chi → s.get? (2 * i + 1) = some clo →
          ∃ nh nl, hex_char_to_u8 chi = Except.ok nh ∧
            hex_char_to_u8 clo = Except.ok nl ∧
            bs.get? i = some (16 * nh + nl)) ∧
    (s.length % 2 = 1 →
      hex_str_to_bytes s = Except.error (ConvertError.OddStringLength s)) ∧
    (isHexAscii c = false →
      hex_char_to_u8 c = Except.error (ConvertError.OutOfHexRange c)) ∧
    (hex_char_to_u8 hi = Except.error e →
      hex_char_pair_to_byte hi lo = Except.error e) ∧
    ((∃ v, hex_char_to_u8 hi = Except.ok v) →
      hex_char_to_u8 lo = Except.error e →
      hex_char_pair_to_byte hi lo = Except.error e) ∧
    (s.length % 2 = 0 → (∃ b ∈ s, isHexAscii b = false) →
      ∃ b, isHexAscii b = false ∧
        hex_str_to_bytes s = Except.error (ConvertError.OutOfHexRange b)) := by
  refine ⟨?_, ?_, fun h => hex_char_to_u8_err_of_not_isHex h,
    fun h => hex_char_pair_to_byte_err_high h,
    fun hv h => hex_char_pair_to_byte_err_low hv.choose_spec h, ?_⟩
  · intro he hhex
    obtain ⟨bs, hbs, hlen, hidx⟩ := hexPairsToBytes_ok s he hhex
    refine ⟨bs, ?_, hlen, hidx⟩
    unfold hex_str_to_bytes
    rw [if_neg (by omega)]
    exact hbs
  · intro hodd
    unfold hex_str_to_bytes
    rw [if_pos (by omega)]
  · intro he hbad
    obtain ⟨b, hbf, herr⟩ := hexPairsToBytes_err s he hbad
    refine ⟨b, hbf, ?_⟩
    unfold hex_str_to_bytes
    rw [if_neg (by omega)]
    exact herr

/-- Witness for C3: the even all-hex string "1aF0" decodes, the odd string
"abc" fails with OddStringLength, the byte 103 (the letter g) fails with
OutOfHexRange in either position of a pair, and "0g" fails with
OutOfHexRange through `hex_str_to_bytes`. -/
theorem C3_hex_codec_witness :
    (∃ bs, hex_str_to_bytes (strBytes "1aF0") = Except.ok bs ∧
      bs.length = (strBytes "1aF0").length / 2 ∧
      ∀ i chi clo, (strBytes "1aF0").get? (2 * i) = some chi →
        (strBytes "1aF0").get? (2 * i + 1) = some clo →
        ∃ nh nl, hex_char_to_u8 chi = Except.ok nh ∧
          hex_char_to_u8 clo = Except.ok nl ∧
          bs.get? i = some (16 * nh + nl)) ∧
    hex_str_to_bytes (strBytes "abc")
      = Except.error (ConvertError.OddStringLength (strBytes "abc")) ∧
    hex_char_to_u8 103 = Except.error (ConvertError.OutOfHexRange 103) ∧
    hex_char_pair_to_byte 103 48 = Except.error (ConvertError.OutOfHexRange 103) ∧
    hex_char_pair_to_byte 48 103 = Except.error (ConvertError.OutOfHexRange 103) ∧
    (∃ b, isHexAscii b = false ∧
      hex_str_to_bytes (strBytes "0g")
        = Except.error (ConvertError.OutOfHexRange b)) := by
  have h1 := C3_hex_codec (strBytes "1aF0") 103 103 48 (ConvertError.OutOfHexRange 103)
  have h2 := C3_hex_codec (strBytes "abc") 103 48 103 (ConvertError.OutOfHexRange 103)
  have h3 := C3_hex_codec (strBytes "0g") 103 103 48 (ConvertError.OutOfHexRange 103)
  exact ⟨h1.1 (by decide) (by decide), h2.2.1 (by decide),
    h1.2.2.1 (by decide), h1.2.2.2.1 (by decide),
    h2.2.2.2.2.1 ⟨0, by decide⟩ (by decide),
    h3.2.2.2.2.2 (by decide) ⟨103, by decide, by decide⟩⟩

/-- C4: the claim states that `OddStringLength` is reported only for
odd-length input, so the even-length 4-character input "0000" given to
`hex_str_to_ipv4` must fail with a different length error.  The code
instead reports `OddStringLength("0000")` for this input (the variant
whose own display text says the length "is not an even number"), so the
code contradicts the claim and its own error documentation.  This theorem
evaluates the code at the failing input. -/
theorem C4_even_length_reported_as_odd :
    (strBytes "0000").length % 2 = 0 ∧
    hex_str_to_ipv4 (strBytes "0000")
      = Except.error (ConvertError.OddStringLength (strBytes "0000")) :=
  ⟨by decide, by decide⟩

/-- C5: a line whose whitespace-split field count is below the minimum
(11 for IPv4, 10 for IPv6) fails with InvalidFieldCount carrying the
minimum as expected and the actual count as found, and the result is
exactly that error — no field-level decoding is performed. -/
theorem C5_invalid_field_count (line4 line6 : List Nat)
    (h4 : (split_whitespace line4).length < 11)
    (h6 : (split_whitespace line6).length < 10) :
    Ipv4RouteEntry.from_str line4
      = pErr (RouteParseError.InvalidFieldCount 11 (split_whitespace line4).length) ∧
    Ipv6RouteEntry.from_str line6
      = pErr (RouteParseError.InvalidFieldCount 10 (split_whitespace line6).length) := by
  constructor
  · simp only [Ipv4RouteEntry.from_str]
    rw [if_pos h4]
  · simp only [Ipv6RouteEntry.from_str]
    rw [if_pos h6]

/-- Witness for C5: a 9-field line fails with InvalidFieldCount 11/9 for
IPv4 and InvalidFieldCount 10/9 for IPv6. -/
theorem C5_invalid_field_count_witness :
    Ipv4RouteEntry.from_str (strBytes "a b c d e f g h i")
      = pErr (RouteParseError.InvalidFieldCount 11 9) ∧
    Ipv6RouteEntry.from_str (strBytes "a b c d e f g h i")
      = pErr (RouteParseError.InvalidFieldCount 10 9) := by
  have h := C5_invalid_field_count (strBytes "a b c d e f g h i")
    (strBytes "a b c d e f g h i") (by decide) (by decide)
  exact h

/-- C7: `from_bits_retain` is total and keeps every bit of its argument,
named or unknown, for both flag types, and `contains` agrees with bitwise
AND: contains f c holds exactly when f.bits AND c.bits equals c.bits. -/
theorem C7_flags_bitmask :
    (∀ b : Nat, (Ipv4RouteFlags.from_bits_retain b).bits = b) ∧
    (∀ f c : Ipv4RouteFlags,
      Ipv4RouteFlags.contains f c = true ↔ f.bits &&& c.bits = c.bits) ∧
    (∀ b : Nat, (Ipv6RouteFlags.from_bits_retain b).bits = b) ∧
    (∀ f c : Ipv6RouteFlags,
      Ipv6RouteFlags.contains f c = true ↔ f.bits &&& c.bits = c.bits) := by
  refine ⟨fun b => rfl, fun f c => ?_, fun b => rfl, fun f c => ?_⟩
  · simp [Ipv4RouteFlags.contains]
  · simp [Ipv6RouteFlags.contains]

/-- C8: the fixture line "lo\t00000000\t00000000\t0001\t0\t0\t0\t00000000\t0\t0\t0"
parses to an entry named lo whose flags contain UP, with all three
addresses 0.0.0.0 and all counters zero. -/
theorem C8_fixture_line :
    Ipv4RouteEntry.from_str
      (strBytes "lo\t00000000\t00000000\t0001\t0\t0\t0\t00000000\t0\t0\t0")
      = pOk (Ipv4RouteEntry.mk (strBytes "lo") (Ipv4Addr.mk 0 0 0 0)
          (Ipv4Addr.mk 0 0 0 0) (Ipv4RouteFlags.mk 1) 0 0 0
          (Ipv4Addr.mk 0 0 0 0) 0 0 0) ∧
    Ipv4RouteFlags.contains (Ipv4RouteFlags.mk 1) Ipv4RouteFlags.UP = true :=
  ⟨by decide, by decide⟩

/-- C9: the IPv4 table skips exactly one leading line and the IPv6 table
skips none; an empty line source yields zero items for both; a source of
n lines yields n-1 items (saturating at 0) for IPv4 and n items for
IPv6. -/
theorem C9_header_skip :
    Ipv4RouteTable.items [] = [] ∧ Ipv6RouteTable.items [] = [] ∧
    (∀ ls, (Ipv4RouteTable.items ls).length = ls.length - 1) ∧
    (∀ ls, (Ipv6RouteTable.items ls).length = ls.length) ∧
    (∀ l ls, Ipv4RouteTable.items (l :: ls) = ls.map Ipv4RouteEntry.from_str) ∧
    (∀ ls, Ipv6RouteTable.items ls = ls.map Ipv6RouteEntry.from_str) := by
  refine ⟨rfl, rfl, fun ls => ?_, fun ls => ?_, fun l ls => rfl, fun ls => rfl⟩
  · simp [Ipv4RouteTable.items]
  · simp [Ipv6RouteTable.items]

/-- C6: a line source yielding one malformed line then one well-formed
line makes the table iterator produce exactly two items, an error then a
valid entry; in general every line yields exactly one item (the IPv4
iterator acting on the lines after its skipped header), so a malformed
line never prevents later lines from being yielded. -/
theorem C6_iterator_per_line (hdr bad4 good4 bad6 good6 : List Nat)
    (e4 : RouteParseError) (v4 : Ipv4RouteEntry)
    (e6 : RouteParseError) (v6 : Ipv6RouteEntry)
    (hb4 : Ipv4RouteEntry.from_str bad4 = pErr e4)
    (hg4 : Ipv4RouteEntry.from_str good4 = pOk v4)
    (hb6 : Ipv6RouteEntry.from_str bad6 = pErr e6)
    (hg6 : Ipv6RouteEntry.from_str good6 = pOk v6) :
    Ipv4RouteTable.items [hdr, bad4, good4] = [pErr e4, pOk v4] ∧
    Ipv6RouteTable.items [bad6, good6] = [pErr e6, pOk v6] ∧
    (∀ ls i, (Ipv6RouteTable.items ls).get? i
      = (ls.get? i).map Ipv6RouteEntry.from_str) ∧
    (∀ ls i, (Ipv4RouteTable.items ls).get? i
      = ((ls.drop 1).get? i).map Ipv4RouteEntry.from_str) := by
  refine ⟨?_, ?_, ?_, ?_⟩
  · simp [Ipv4RouteTable.items, hb4, hg4]
  · simp [Ipv6RouteTable.items, hb6, hg6]
  · intro ls i
    simp [Ipv6RouteTable.items, List.get?_map]
  · intro ls i
    simp [Ipv4RouteTable.items, List.get?_map]

/-- Witness for C6: after the skipped header, the malformed line "x"
followed by a well-formed line yields exactly an InvalidFieldCount error
item and then a valid entry item, for both families. -/
theorem C6_iterator_per_line_witness :
    Ipv4RouteTable.items
      [strBytes "Iface Destination Gateway",
       strBytes "x",
       strBytes "lo\t00000000\t00000000\t0001\t0\t0\t0\t00000000\t0\t0\t0"]
      = [pErr (RouteParseError.InvalidFieldCount 11 1),
         pOk (Ipv4RouteEntry.mk (strBytes "lo") (Ipv4Addr.mk 0 0 0 0)
           (Ipv4Addr.mk 0 0 0 0) (Ipv4RouteFlags.mk 1) 0 0 0
           (Ipv4Addr.mk 0 0 0 0) 0 0 0)] ∧
    Ipv6RouteTable.items
      [strBytes "x",
       strBytes "00000000000000000000000000000000 00 00000000000000000000000000000000 00 00000000000000000000000000000000 00000000 00000000 00000000 00000000 lo"]
      = [pErr (RouteParseError.InvalidFieldCount 10 1),
         pOk (Ipv6RouteEntry.mk
           (Ipv6Addr.mk [0,0,0,0,0,0,0,0,0,0,0,0,0,0,0,0]) 0
           (Ipv6Addr.mk [0,0,0,0,0,0,0,0,0,0,0,0,0,0,0,0]) 0
           (Ipv6Addr.mk [0,0,0,0,0,0,0,0,0,0,0,0,0,0,0,0]) 0 0 0
           (Ipv6RouteFlags.mk 0) (strBytes "lo"))] := by
  have h := C6_iterator_per_line
    (strBytes "Iface Destination Gateway") (strBytes "x")
    (strBytes "lo\t00000000\t00000000\t0001\t0\t0\t0\t00000000\t0\t0\t0")
    (strBytes "x")
    (strBytes "00000000000000000000000000000000 00 00000000000000000000000000000000 00 00000000000000000000000000000000 00000000 00000000 00000000 00000000 lo")
    (RouteParseError.InvalidFieldCount 11 1)
    (Ipv4RouteEntry.mk (strBytes "lo") (Ipv4Addr.mk 0 0 0 0)
      (Ipv4Addr.mk 0 0 0 0) (Ipv4RouteFlags.mk 1) 0 0 0
      (Ipv4Addr.mk 0 0 0 0) 0 0 0)
    (RouteParseError.InvalidFieldCount 10 1)
    (Ipv6RouteEntry.mk
      (Ipv6Addr.mk [0,0,0,0,0,0,0,0,0,0,0,0,0,0,0,0]) 0
      (Ipv6Addr.mk [0,0,0,0,0,0,0,0,0,0,0,0,0,0,0,0]) 0
      (Ipv6Addr.mk [0,0,0,0,0,0,0,0,0,0,0,0,0,0,0,0]) 0 0 0
      (Ipv6RouteFlags.mk 0) (strBytes "lo"))
    (by decide) (by decide) (by decide) (by decide)
  exact ⟨h.1, h.2.1⟩

/-- Modelled from the spec (for comparison in C2): the single-byte value
"recovered big-endian from the hex-decoded bytes of the whole field" — the
claimed decoding of a 2-hex-character counter field. -/
def specCounterByteBE (f : List Nat) : Option Nat :=
  match hex_str_to_bytes f with
  | Except.ok [b] => some b
  | _ => none

/-- C2 counterexample: on an 11-field IPv4 route line whose RefCnt field
is the two hex characters "ff" (whose whole-field big-endian decoding is
the byte 255), the parser returns ref_count = 15 — the hex value of the
first character only — refuting the claim at this input. -/
theorem C2_counterexample :
    Ipv4RouteEntry.from_str
      (strBytes "lo 00000000 00000000 0001 ff 00 00 00000000 00 00 00")
      = pOk (Ipv4RouteEntry.mk (strBytes "lo") (Ipv4Addr.mk 0 0 0 0)
          (Ipv4Addr.mk 0 0 0 0) (Ipv4RouteFlags.mk 1) 15 0 0
          (Ipv4Addr.mk 0 0 0 0) 0 0 0) ∧
    specCounterByteBE (strBytes "ff") = some 255 ∧ (15 : Nat) ≠ 255 :=
  ⟨by decide, by decide, by decide⟩

/-- C2 as amended: for every IPv4 route line, each counter field (RefCnt,
Use, Metric, MTU, Window, IRTT) of a successfully parsed entry is decoded
from the first character of the corresponding whitespace-separated field
only, as a single hex nibble (hence < 16), not as the big-endian byte of
the whole 2-character field. -/
theorem C2_amended_counters_first_nibble (line : List Nat)
    (e : Ipv4RouteEntry) (h : Ipv4RouteEntry.from_str line = pOk e) :
    (∃ f c, (split_whitespace line).get? 4 = some f ∧ f.get? 0 = some c ∧
      hex_char_to_u8 c = Except.ok e.ref_count ∧ e.ref_count < 16) ∧
    (∃ f c, (split_whitespace line).get? 5 = some f ∧ f.get? 0 = some c ∧
      hex_char_to_u8 c = Except.ok e.use_count ∧ e.use_count < 16) ∧
    (∃ f c, (split_whitespace line).get? 6 = some f ∧ f.get? 0 = some c ∧
      hex_char_to_u8 c = Except.ok e.metric ∧ e.metric < 16) ∧
    (∃ f c, (split_whitespace line).get? 8 = some f ∧ f.get? 0 = some c ∧
      hex_char_to_u8 c = Except.ok e.mtu ∧ e.mtu < 16) ∧
    (∃ f c, (split_whitespace line).get? 9 = some f ∧ f.get? 0 = some c ∧
      hex_char_to_u8 c = Except.ok e.window ∧ e.window < 16) ∧
    (∃ f c, (split_whitespace line).get? 10 = some f ∧ f.get? 0 = some c ∧
      hex_char_to_u8 c = Except.ok e.irtt ∧ e.irtt < 16) := by
  simp only [Ipv4RouteEntry.from_str] at h
  by_cases hlt : (split_whitespace line).length < 11
  · rw [if_pos hlt] at h
    unfold pErr pOk at h
    injection h with h
    exact Except.noConfusion h
  · rw [if_neg hlt] at h
    obtain ⟨f0, hf0, h⟩ := pBind_eq_ok h
    obtain ⟨f1, hf1, h⟩ := pBind_eq_ok h
    obtain ⟨dest, hdest, h⟩ := pBind_eq_ok h
    obtain ⟨f2, hf2, h⟩ := pBind_eq_ok h
    obtain ⟨gw, hgw, h⟩ := pBind_eq_ok h
    obtain ⟨f3, hf3, h⟩ := pBind_eq_ok h
    obtain ⟨fbs, hfbs, h⟩ := pBind_eq_ok h
    obtain ⟨fp, hfp, h⟩ := pBind_eq_ok h
    obtain ⟨f4, hf4, h⟩ := pBind_eq_ok h
    obtain ⟨c4, hc4, h⟩ := pBind_eq_ok h
    obtain ⟨rc, hrc, h⟩ := pBind_eq_ok h
    obtain ⟨f5, hf5, h⟩ := pBind_eq_ok h
    obtain ⟨c5, hc5, h⟩ := pBind_eq_ok h
    obtain ⟨uc, huc, h⟩ := pBind_eq_ok h
    obtain ⟨f6, hf6, h⟩ := pBind_eq_ok h
    obtain ⟨c6, hc6, h⟩ := pBind_eq_ok h
    obtain ⟨mr, hmr, h⟩ := pBind_eq_ok h
    obtain ⟨f7, hf7, h⟩ := pBind_eq_ok h
    obtain ⟨mask, hmask, h⟩ := pBind_eq_ok h
    obtain ⟨f8, hf8, h⟩ := pBind_eq_ok h
    obtain ⟨c8, hc8, h⟩ := pBind_eq_ok h
    obtain ⟨mt, hmt, h⟩ := pBind_eq_ok h
    obtain ⟨f9, hf9, h⟩ := pBind_eq_ok h
    obtain ⟨c9, hc9, h⟩ := pBind_eq_ok h
    obtain ⟨wd, hwd, h⟩ := pBind_eq_ok h
    obtain ⟨f10, hf10, h⟩ := pBind_eq_ok h
    obtain ⟨c10, hc10, h⟩ := pBind_eq_ok h
    obtain ⟨ir, hir, h⟩ := pBind_eq_ok h
    unfold pOk at h
    injection h with h
    injection h with h
    subst h
    refine ⟨⟨f4, c4, getField_eq_ok hf4, indexByte_eq_ok hc4,
        ofConvert_eq_ok hrc, hex_char_to_u8_lt (ofConvert_eq_ok hrc)⟩,
      ⟨f5, c5, getField_eq_ok hf5, indexByte_eq_ok hc5,
        ofConvert_eq_ok huc, hex_char_to_u8_lt (ofConvert_eq_ok huc)⟩,
      ⟨f6, c6, getField_eq_ok hf6, indexByte_eq_ok hc6,
        ofConvert_eq_ok hmr, hex_char_to_u8_lt (ofConvert_eq_ok hmr)⟩,
      ⟨f8, c8, getField_eq_ok hf8, indexByte_eq_ok hc8,
        ofConvert_eq_ok hmt, hex_char_to_u8_lt (ofConvert_eq_ok hmt)⟩,
      ⟨f9, c9, getField_eq_ok hf9, indexByte_eq_ok hc9,
        ofConvert_eq_ok hwd, hex_char_to_u8_lt (ofConvert_eq_ok hwd)⟩,
      ⟨f10, c10, getField_eq_ok hf10, indexByte_eq_ok hc10,
        ofConvert_eq_ok hir, hex_char_to_u8_lt (ofConvert_eq_ok hir)⟩⟩

/-- Witness for the amended C2 at the counterexample line: the RefCnt
field "ff" is present at index 4 and the parsed ref_count is the nibble of
its first character. -/
theorem C2_amended_counters_first_nibble_witness :
    ∃ f c, (split_whitespace
        (strBytes "lo 00000000 00000000 0001 ff 00 00 00000000 00 00 00")).get? 4
        = some f ∧ f.get? 0 = some c ∧
      hex_char_to_u8 c = Except.ok 15 ∧ (15 : Nat) < 16 :=
  (C2_amended_counters_first_nibble
    (strBytes "lo 00000000 00000000 0001 ff 00 00 00000000 00 00 00")
    (Ipv4RouteEntry.mk (strBytes "lo") (Ipv4Addr.mk 0 0 0 0)
      (Ipv4Addr.mk 0 0 0 0) (Ipv4RouteFlags.mk 1) 15 0 0
      (Ipv4Addr.mk 0 0 0 0) 0 0 0)
    (by decide)).1

theorem getField_ne_none (fields : List (List Nat)) (i : Nat) :
    getField fields i ≠ none := by
  unfold getField
  exact Option.noConfusion

theorem ofConvert_ne_none {α : Type} (x : Except ConvertError α) :
    ofConvert x ≠ none := by
  unfold ofConvert
  exact Option.noConfusion

theorem sliceToPair_ne_none (f : List Nat) : sliceToPair f ≠ none := by
  unfold sliceToPair
  exact Option.noConfusion

theorem sliceToQuad_ne_none (f : List Nat) : sliceToQuad f ≠ none := by
  unfold sliceToQuad
  exact Option.noConfusion

theorem pOk_ne_none {α : Type} (a : α) : pOk a ≠ none := by
  unfold pOk
  exact Option.noConfusion

theorem pErr_ne_none {α : Type} (e : RouteParseError) :
    (pErr e : ParseM α) ≠ none := by
  unfold pErr
  exact Option.noConfusion

/-- C10: both line parsers return a value (entry or typed error) on every
input line and never panic: once the field-count check passes, every field
produced by whitespace splitting is non-empty, so the direct index [0]
into the counter fields in the IPv4 parser is always in bounds (the model
returns `none` exactly where the Rust code would panic). -/
theorem C10_no_panic (line : List Nat) :
    Ipv4RouteEntry.from_str line ≠ none ∧
    Ipv6RouteEntry.from_str line ≠ none := by
  constructor
  · simp only [Ipv4RouteEntry.from_str]
    by_cases hlt : (split_whitespace line).length < 11
    · rw [if_pos hlt]
      exact pErr_ne_none _
    · rw [if_neg hlt]
      refine pBind_ne_none (getField_ne_none _ _) (fun f0 _ => ?_)
      refine pBind_ne_none (getField_ne_none _ _) (fun f1 _ => ?_)
      refine pBind_ne_none (ofConvert_ne_none _) (fun dest _ => ?_)
      refine pBind_ne_none (getField_ne_none _ _) (fun f2 _ => ?_)
      refine pBind_ne_none (ofConvert_ne_none _) (fun gw _ => ?_)
      refine pBind_ne_none (getField_ne_none _ _) (fun f3 _ => ?_)
      refine pBind_ne_none (ofConvert_ne_none _) (fun fbs _ => ?_)
      refine pBind_ne_none (sliceToPair_ne_none _) (fun fp _ => ?_)
      refine pBind_ne_none (getField_ne_none _ _) (fun f4 hf4 => ?_)
      refine pBind_ne_none (indexByte_ne_none (split_whitespace_mem_ne_nil
        (List.get?_mem (getField_eq_ok hf4)))) (fun c4 _ => ?_)
      refine pBind_ne_none (ofConvert_ne_none _) (fun rc _ => ?_)
      refine pBind_ne_none (getField_ne_none _ _) (fun f5 hf5 => ?_)
      refine pBind_ne_none (indexByte_ne_none (split_whitespace_mem_ne_nil
        (List.get?_mem (getField_eq_ok hf5)))) (fun c5 _ => ?_)
      refine pBind_ne_none (ofConvert_ne_none _) (fun uc _ => ?_)
      refine pBind_ne_none (getField_ne_none _ _) (fun f6 hf6 => ?_)
      refine pBind_ne_none (indexByte_ne_none (split_whitespace_mem_ne_nil
        (List.get?_mem (getField_eq_ok hf6)))) (fun c6 _ => ?_)
      refine pBind_ne_none (ofConvert_ne_none _) (fun mr _ => ?_)
      refine pBind_ne_none (getField_ne_none _ _) (fun f7 _ => ?_)
      refine pBind_ne_none (ofConvert_ne_none _) (fun mask _ => ?_)
      refine pBind_ne_none (getField_ne_none _ _) (fun f8 hf8 => ?_)
      refine pBind_ne_none (indexByte_ne_none (split_whitespace_mem_ne_nil
        (List.get?_mem (getField_eq_ok hf8)))) (fun c8 _ => ?_)
      refine pBind_ne_none (ofConvert_ne_none _) (fun mt _ => ?_)
      refine pBind_ne_none (getField_ne_none _ _) (fun f9 hf9 => ?_)
      refine pBind_ne_none (indexByte_ne_none (split_whitespace_mem_ne_nil
        (List.get?_mem (getField_eq_ok hf9)))) (fun c9 _ => ?_)
      refine pBind_ne_none (ofConvert_ne_none _) (fun wd _ => ?_)
      refine pBind_ne_none (getField_ne_none _ _) (fun f10 hf10 => ?_)
      refine pBind_ne_none (indexByte_ne_none (split_whitespace_mem_ne_nil
        (List.get?_mem (getField_eq_ok hf10)))) (fun c10 _ => ?_)
      refine pBind_ne_none (ofConvert_ne_none _) (fun ir _ => ?_)
      exact pOk_ne_none _
  · simp only [Ipv6RouteEntry.from_str]
    by_cases hlt : (split_whitespace line).length < 10
    · rw [if_pos hlt]
      exact pErr_ne_none _
    · rw [if_neg hlt]
      refine pBind_ne_none (getField_ne_none _ _) (fun _ _ => ?_)
      refine pBind_ne_none (ofConvert_ne_none _) (fun _ _ => ?_)
      refine pBind_ne_none (getField_ne_none _ _) (fun _ _ => ?_)
      refine pBind_ne_none (sliceToPair_ne_none _) (fun _ _ => ?_)
      refine pBind_ne_none (ofConvert_ne_none _) (fun _ _ => ?_)
      refine pBind_ne_none (getField_ne_none _ _) (fun _ _ => ?_)
      refine pBind_ne_none (ofConvert_ne_none _) (fun _ _ => ?_)
      refine pBind_ne_none (getField_ne_none _ _) (fun _ _ => ?_)
      refine pBind_ne_none (sliceToPair_ne_none _) (fun _ _ => ?_)
      refine pBind_ne_none (ofConvert_ne_none _) (fun _ _ => ?_)
      refine pBind_ne_none (getField_ne_none _ _) (fun _ _ => ?_)
      refine pBind_ne_none (ofConvert_ne_none _) (fun _ _ => ?_)
      refine pBind_ne_none (getField_ne_none _ _) (fun _ _ => ?_)
      refine pBind_ne_none (ofConvert_ne_none _) (fun _ _ => ?_)
      refine pBind_ne_none (sliceToQuad_ne_none _) (fun _ _ => ?_)
      refine pBind_ne_none (getField_ne_none _ _) (fun _ _ => ?_)
      refine pBind_ne_none (ofConvert_ne_none _) (fun _ _ => ?_)
      refine pBind_ne_none (sliceToQuad_ne_none _) (fun _ _ => ?_)
      refine pBind_ne_none (getField_ne_none _ _) (fun _ _ => ?_)
      refine pBind_ne_none (ofConvert_ne_none _) (fun _ _ => ?_)
      refine pBind_ne_none (sliceToQuad_ne_none _) (fun _ _ => ?_)
      refine pBind_ne_none (getField_ne_none _ _) (fun _ _ => ?_)
      refine pBind_ne_none (ofConvert_ne_none _) (fun _ _ => ?_)
      refine pBind_ne_none (sliceToQuad_ne_none _) (fun _ _ => ?_)
      refine pBind_ne_none (getField_ne_none _ _) (fun _ _ => ?_)
      exact pOk_ne_none _

end ProcRoute
